import Mathlib

/-!
Shallow embedding of the keyframe animation program `animation_software.py`.

Data model: an animated object's keyframe store is a Python dict
`{frame: {x, y, brightness}}`; we embed it as an insertion-ordered
association list `List (ℤ × AnimState)` (Python dicts preserve insertion
order and have unique keys).  Python floats are embedded as `ℚ`, frames as
`ℤ`.  Python's `int(...)` on a float truncates toward zero, embedded as
`qtrunc`.  Python's `min`/`max` over a non-empty sequence are embedded as
left folds (`pyMin`/`pyMax`).
-/

/-- A keyframe state snapshot: the dict `{x, y, brightness}` stored in
`AnimatedObject.keyframes`. -/
structure AnimState where
  x : ℚ
  y : ℚ
  brightness : ℚ
deriving DecidableEq, Repr

/-- Python `int(q)`: truncation toward zero. -/
def qtrunc (q : ℚ) : ℤ := if 0 ≤ q then ⌊q⌋ else ⌈q⌉

/-- Python `min(seq)` for a non-empty integer sequence (0 for the empty
sequence, which the source never passes). -/
def pyMin : List ℤ → ℤ
  | [] => 0
  | x :: xs => xs.foldl min x

/-- Python `max(seq)` for a non-empty integer sequence (0 for the empty
sequence, which the source never passes). -/
def pyMax : List ℤ → ℤ
  | [] => 0
  | x :: xs => xs.foldl max x

/-- Dict lookup `kfs[frame]` on the association-list embedding (first
entry whose key matches). -/
def kfLookup (kfs : List (ℤ × AnimState)) (frame : ℤ) : Option AnimState :=
  (kfs.find? (fun p => p.1 == frame)).map Prod.snd

/-- Dict assignment `kfs[frame] = s`: overwrite in place if the key is
present, otherwise append (Python dicts keep insertion order). -/
def kfInsert : List (ℤ × AnimState) → ℤ → AnimState → List (ℤ × AnimState)
  | [], f, s => [(f, s)]
  | (k, v) :: tl, f, s => if k = f then (k, s) :: tl else (k, v) :: kfInsert tl f s

/-- Dict deletion `del kfs[frame]`: remove the (unique) entry with that
key. -/
def kfDelete (kfs : List (ℤ × AnimState)) (frame : ℤ) : List (ℤ × AnimState) :=
  kfs.eraseP (fun p => p.1 == frame)

/-- `AnimatedObject.get_interpolated_state` (lines 39-76 of the source):
exact hit returns the stored entry; frames outside the keyed range clamp
to the nearest end key; otherwise linear interpolation between the
greatest key below and the smallest key above. -/
def get_interpolated_state (kfs : List (ℤ × AnimState)) (frame : ℤ) : Option AnimState :=
  if kfs.isEmpty then none
  else if (kfs.map Prod.fst).contains frame then
    kfLookup kfs frame
  else
    let keys := kfs.map Prod.fst
    let before_frames := keys.filter (fun f => decide (f < frame))
    let after_frames := keys.filter (fun f => decide (frame < f))
    if before_frames.isEmpty then
      kfLookup kfs (pyMin keys)
    else if after_frames.isEmpty then
      kfLookup kfs (pyMax keys)
    else
      let frame_before := pyMax before_frames
      let frame_after := pyMin after_frames
      match kfLookup kfs frame_before, kfLookup kfs frame_after with
      | some kf_before, some kf_after =>
        let t : ℚ := ((frame : ℚ) - (frame_before : ℚ)) / ((frame_after : ℚ) - (frame_before : ℚ))
        some { x := kf_before.x + (kf_after.x - kf_before.x) * t,
               y := kf_before.y + (kf_after.y - kf_before.y) * t,
               brightness := kf_before.brightness + (kf_after.brightness - kf_before.brightness) * t }
      | _, _ => none

/-- The `AnimatedObject` fields the core logic touches: current position,
size, base color and rendered color (RGB channel triples), brightness,
and the keyframe store. -/
structure AnimatedObject where
  posX : ℚ
  posY : ℚ
  size : ℚ
  base_color : ℤ × ℤ × ℤ
  rendered_color : ℤ × ℤ × ℤ
  brightness : ℚ
  keyframes : List (ℤ × AnimState)
deriving DecidableEq, Repr

/-- `AnimatedObject.__init__(x, y, size)`: default base color
`(100, 150, 255)`, brightness 100, empty keyframe store. -/
def mkAnimatedObject (x y size : ℚ) : AnimatedObject :=
  { posX := x, posY := y, size := size,
    base_color := (100, 150, 255), rendered_color := (100, 150, 255),
    brightness := 100, keyframes := [] }

/-- `AnimatedObject.set_brightness`: store the brightness and recompute
the rendered color as `min(255, int(channel * brightness / 100))` per
channel. -/
def set_brightness (obj : AnimatedObject) (brightness : ℚ) : AnimatedObject :=
  let factor := brightness / 100
  { obj with
    brightness := brightness,
    rendered_color :=
      (min 255 (qtrunc ((obj.base_color.1 : ℚ) * factor)),
       min 255 (qtrunc ((obj.base_color.2.1 : ℚ) * factor)),
       min 255 (qtrunc ((obj.base_color.2.2 : ℚ) * factor))) }

/-- `AnimatedObject.set_base_color`: replace the base color and reapply
the current brightness. -/
def set_base_color (obj : AnimatedObject) (c : ℤ × ℤ × ℤ) : AnimatedObject :=
  set_brightness { obj with base_color := c } obj.brightness

/-- `AnimatedObject.add_keyframe`: snapshot the current position and
brightness into the store at `frame`. -/
def add_keyframe (obj : AnimatedObject) (frame : ℤ) : AnimatedObject :=
  let snap : AnimState := { x := obj.posX, y := obj.posY, brightness := obj.brightness }
  { obj with keyframes := kfInsert obj.keyframes frame snap }

/-- `AnimatedObject.remove_keyframe`: delete the entry at `frame` if
present, otherwise do nothing. -/
def remove_keyframe (obj : AnimatedObject) (frame : ℤ) : AnimatedObject :=
  if (obj.keyframes.map Prod.fst).contains frame then
    { obj with keyframes := kfDelete obj.keyframes frame }
  else obj

/-- The per-object body of `AnimationSoftware.update_objects_for_frame`
(lines 539-545): evaluate the store at `frame`; if a state comes back,
overwrite position and brightness (which re-derives the rendered color),
otherwise leave the object untouched. -/
def applyFrame (obj : AnimatedObject) (frame : ℤ) : AnimatedObject :=
  match get_interpolated_state obj.keyframes frame with
  | none => obj
  | some st => set_brightness { obj with posX := st.x, posY := st.y } st.brightness

/-! ### Helper lemmas: Python `min`/`max` folds and dict lookup -/

theorem foldl_min_le_init (xs : List ℤ) (x : ℤ) : xs.foldl min x ≤ x := by
  induction xs generalizing x with
  | nil => exact le_refl x
  | cons y ys ih => exact le_trans (ih (min x y)) (min_le_left x y)

theorem foldl_min_mem (xs : List ℤ) (x : ℤ) : xs.foldl min x ∈ x :: xs := by
  induction xs generalizing x with
  | nil => simp
  | cons y ys ih =>
    simp only [List.foldl_cons]
    rcases List.mem_cons.mp (ih (min x y)) with h1 | h1
    · rw [h1]
      rcases min_choice x y with hm | hm <;> rw [hm] <;> simp
    · exact List.mem_cons_of_mem _ (List.mem_cons_of_mem _ h1)

theorem foldl_min_le (xs : List ℤ) (x y : ℤ) (hy : y ∈ x :: xs) : xs.foldl min x ≤ y := by
  induction xs generalizing x with
  | nil =>
    rcases List.mem_cons.mp hy with h | h
    · simp [h]
    · simp at h
  | cons z zs ih =>
    simp only [List.foldl_cons]
    rcases List.mem_cons.mp hy with h | h
    · rw [h]
      exact le_trans (foldl_min_le_init zs (min x z)) (min_le_left x z)
    · rcases List.mem_cons.mp h with h2 | h2
      · rw [h2]
        exact le_trans (foldl_min_le_init zs (min x z)) (min_le_right x z)
      · exact ih (min x z) (List.mem_cons_of_mem _ h2)

theorem foldl_max_le_init (xs : List ℤ) (x : ℤ) : x ≤ xs.foldl max x := by
  induction xs generalizing x with
  | nil => exact le_refl x
  | cons y ys ih => exact le_trans (le_max_left x y) (ih (max x y))

theorem foldl_max_mem (xs : List ℤ) (x : ℤ) : xs.foldl max x ∈ x :: xs := by
  induction xs generalizing x with
  | nil => simp
  | cons y ys ih =>
    simp only [List.foldl_cons]
    rcases List.mem_cons.mp (ih (max x y)) with h1 | h1
    · rw [h1]
      rcases max_choice x y with hm | hm <;> rw [hm] <;> simp
    · exact List.mem_cons_of_mem _ (List.mem_cons_of_mem _ h1)

theorem foldl_max_le (xs : List ℤ) (x y : ℤ) (hy : y ∈ x :: xs) : y ≤ xs.foldl max x := by
  induction xs generalizing x with
  | nil =>
    rcases List.mem_cons.mp hy with h | h
    · simp [h]
    · simp at h
  | cons z zs ih =>
    simp only [List.foldl_cons]
    rcases List.mem_cons.mp hy with h | h
    · rw [h]
      exact le_trans (le_max_left x z) (foldl_max_le_init zs (max x z))
    · rcases List.mem_cons.mp h with h2 | h2
      · rw [h2]
        exact le_trans (le_max_right x z) (foldl_max_le_init zs (max x z))
      · exact ih (max x z) (List.mem_cons_of_mem _ h2)

theorem pyMin_mem (l : List ℤ) (h : l ≠ []) : pyMin l ∈ l := by
  match l with
  | [] => exact absurd rfl h
  | x :: xs => exact foldl_min_mem xs x

theorem pyMin_le (l : List ℤ) (y : ℤ) (hy : y ∈ l) : pyMin l ≤ y := by
  match l with
  | [] => simp at hy
  | x :: xs => exact foldl_min_le xs x y hy

theorem pyMin_eq (l : List ℤ) (m : ℤ) (hm : m ∈ l) (hlb : ∀ y ∈ l, m ≤ y) : pyMin l = m :=
  le_antisymm (pyMin_le l m hm) (hlb _ (pyMin_mem l (List.ne_nil_of_mem hm)))

theorem pyMax_mem (l : List ℤ) (h : l ≠ []) : pyMax l ∈ l := by
  match l with
  | [] => exact absurd rfl h
  | x :: xs => exact foldl_max_mem xs x

theorem pyMax_le (l : List ℤ) (y : ℤ) (hy : y ∈ l) : y ≤ pyMax l := by
  match l with
  | [] => simp at hy
  | x :: xs => exact foldl_max_le xs x y hy

theorem pyMax_eq (l : List ℤ) (m : ℤ) (hm : m ∈ l) (hub : ∀ y ∈ l, y ≤ m) : pyMax l = m :=
  le_antisymm (hub _ (pyMax_mem l (List.ne_nil_of_mem hm))) (pyMax_le l m hm)

theorem kfLookup_eq_some (kfs : List (ℤ × AnimState)) (f : ℤ) (s : AnimState)
    (hnd : (kfs.map Prod.fst).Nodup) (hmem : (f, s) ∈ kfs) :
    kfLookup kfs f = some s := by
  induction kfs with
  | nil => simp at hmem
  | cons p tl ih =>
    obtain ⟨k, v⟩ := p
    simp only [List.map_cons, List.nodup_cons] at hnd
    rcases List.mem_cons.mp hmem with h | h
    · injection h with hk hv
      subst hk
      subst hv
      simp [kfLookup, List.find?_cons]
    · have hkf : k ≠ f := by
        intro hkf
        exact hnd.1 (hkf ▸ (List.mem_map.mpr ⟨(f, s), h, rfl⟩))
      simpa [kfLookup, List.find?_cons, hkf] using ih hnd.2 h

theorem gis_branch (kfs : List (ℤ × AnimState)) (f : ℤ) (hne : kfs ≠ [])
    (hnm : f ∉ kfs.map Prod.fst) :
    get_interpolated_state kfs f =
      (let keys := kfs.map Prod.fst
       let before_frames := keys.filter (fun k => decide (k < f))
       let after_frames := keys.filter (fun k => decide (f < k))
       if before_frames.isEmpty then kfLookup kfs (pyMin keys)
       else if after_frames.isEmpty then kfLookup kfs (pyMax keys)
       else
         let frame_before := pyMax before_frames
         let frame_after := pyMin after_frames
         match kfLookup kfs frame_before, kfLookup kfs frame_after with
         | some kf_before, some kf_after =>
           let t : ℚ := ((f : ℚ) - (frame_before : ℚ)) / ((frame_after : ℚ) - (frame_before : ℚ))
           some { x := kf_before.x + (kf_after.x - kf_before.x) * t,
                  y := kf_before.y + (kf_after.y - kf_before.y) * t,
                  brightness := kf_before.brightness + (kf_after.brightness - kf_before.brightness) * t }
         | _, _ => none) := by
  simp only [get_interpolated_state]
  rw [if_neg, if_neg]
  · intro hc
    exact hnm (List.elem_iff.mp hc)
  · simp [List.isEmpty_iff, hne]

/-! ### Claim theorems -/

/-- C2: for every non-empty keyframe store and every frame that is a key
of the store, `get_interpolated_state` returns exactly the state stored
at that key, with no interpolation arithmetic applied. -/
theorem C2_exact_key_returns_stored_state
    (kfs : List (ℤ × AnimState)) (f : ℤ) (s : AnimState)
    (hnd : (kfs.map Prod.fst).Nodup) (hmem : (f, s) ∈ kfs) :
    get_interpolated_state kfs f = some s := by
  have hne : kfs ≠ [] := List.ne_nil_of_mem hmem
  have hkey : f ∈ kfs.map Prod.fst := List.mem_map.mpr ⟨(f, s), hmem, rfl⟩
  simp only [get_interpolated_state]
  rw [if_neg, if_pos (List.elem_iff.mpr hkey)]
  · exact kfLookup_eq_some kfs f s hnd hmem
  · simp [List.isEmpty_iff, hne]

/-- C2 witness: a concrete two-key store evaluated at one of its keys. -/
theorem C2_exact_key_witness :
    (([((0 : ℤ), ({ x := 1, y := 2, brightness := 3 } : AnimState)),
       ((10 : ℤ), ({ x := 4, y := 5, brightness := 6 } : AnimState))].map Prod.fst).Nodup
     ∧ ((10 : ℤ), ({ x := 4, y := 5, brightness := 6 } : AnimState)) ∈
        [((0 : ℤ), ({ x := 1, y := 2, brightness := 3 } : AnimState)),
         ((10 : ℤ), ({ x := 4, y := 5, brightness := 6 } : AnimState))])
    ∧ get_interpolated_state
        [((0 : ℤ), ({ x := 1, y := 2, brightness := 3 } : AnimState)),
         ((10 : ℤ), ({ x := 4, y := 5, brightness := 6 } : AnimState))] 10 =
        some { x := 4, y := 5, brightness := 6 } :=
  ⟨⟨by simp, by simp⟩,
   C2_exact_key_returns_stored_state _ 10 _ (by simp)
     (List.mem_cons_of_mem _ (List.mem_cons_self _ _))⟩

/-- C3: for every non-empty keyframe store, a frame strictly below every
key evaluates to the minimum key's stored state, and a frame strictly
above every key evaluates to the maximum key's stored state. -/
theorem C3_clamp_outside_key_range
    (kfs : List (ℤ × AnimState)) (f k : ℤ) (s : AnimState)
    (hnd : (kfs.map Prod.fst).Nodup) (hmem : (k, s) ∈ kfs) :
    ((∀ k2 ∈ kfs.map Prod.fst, f < k2) → (∀ k2 ∈ kfs.map Prod.fst, k ≤ k2) →
       get_interpolated_state kfs f = some s) ∧
    ((∀ k2 ∈ kfs.map Prod.fst, k2 < f) → (∀ k2 ∈ kfs.map Prod.fst, k2 ≤ k) →
       get_interpolated_state kfs f = some s) := by
  have hne : kfs ≠ [] := List.ne_nil_of_mem hmem
  have hkey : k ∈ kfs.map Prod.fst := List.mem_map.mpr ⟨(k, s), hmem, rfl⟩
  constructor
  · intro hlt hmin
    have hnm : f ∉ kfs.map Prod.fst := fun hf => absurd (hlt f hf) (lt_irrefl f)
    have hbefore : (kfs.map Prod.fst).filter (fun x => decide (x < f)) = [] :=
      List.filter_eq_nil_iff.mpr
        (fun a ha => by simpa using not_lt_of_gt (hlt a ha))
    have hminEq : pyMin (kfs.map Prod.fst) = k := pyMin_eq _ k hkey hmin
    rw [gis_branch kfs f hne hnm]
    simp only [hbefore, List.isEmpty_nil, if_true, hminEq]
    exact kfLookup_eq_some kfs k s hnd hmem
  · intro hlt hmax
    have hnm : f ∉ kfs.map Prod.fst := fun hf => absurd (hlt f hf) (lt_irrefl f)
    have hafter : (kfs.map Prod.fst).filter (fun x => decide (f < x)) = [] :=
      List.filter_eq_nil_iff.mpr
        (fun a ha => by simpa using not_lt_of_gt (hlt a ha))
    have hbefore : k ∈ (kfs.map Prod.fst).filter (fun x => decide (x < f)) :=
      List.mem_filter.mpr ⟨hkey, by simpa using hlt k hkey⟩
    have hbne : ((kfs.map Prod.fst).filter (fun x => decide (x < f))).isEmpty = false := by
      rcases hb : (kfs.map Prod.fst).filter (fun x => decide (x < f)) with _ | _
      · rw [hb] at hbefore
        simp at hbefore
      · rfl
    have hmaxEq : pyMax (kfs.map Prod.fst) = k := pyMax_eq _ k hkey hmax
    rw [gis_branch kfs f hne hnm]
    simp only [hbne, hafter, List.isEmpty_nil, if_true, if_false, Bool.false_eq_true, hmaxEq]
    exact kfLookup_eq_some kfs k s hnd hmem

/-- C3 witness: a concrete two-key store evaluated below and above its
key range. -/
theorem C3_clamp_witness :
    (get_interpolated_state
        [((5 : ℤ), ({ x := 1, y := 2, brightness := 3 } : AnimState)),
         ((10 : ℤ), ({ x := 4, y := 5, brightness := 6 } : AnimState))] 2 =
      some { x := 1, y := 2, brightness := 3 })
    ∧ (get_interpolated_state
        [((5 : ℤ), ({ x := 1, y := 2, brightness := 3 } : AnimState)),
         ((10 : ℤ), ({ x := 4, y := 5, brightness := 6 } : AnimState))] 42 =
      some { x := 4, y := 5, brightness := 6 }) :=
  ⟨(C3_clamp_outside_key_range _ 2 5 _ (by simp) (List.mem_cons_self _ _)).1
      (by intro k2 hk2; simp at hk2; rcases hk2 with h | h <;> simp [h])
      (by intro k2 hk2; simp at hk2; rcases hk2 with h | h <;> simp [h]),
   (C3_clamp_outside_key_range _ 42 10 _ (by simp)
      (List.mem_cons_of_mem _ (List.mem_cons_self _ _))).2
      (by intro k2 hk2; simp at hk2; rcases hk2 with h | h <;> simp [h])
      (by intro k2 hk2; simp at hk2; rcases hk2 with h | h <;> simp [h])⟩

/-- C4: evaluating an empty keyframe store yields no state at any frame,
and applying a frame to an object whose store is empty leaves the object
(position, brightness and all) unchanged. -/
theorem C4_empty_store_no_state (f : ℤ) (obj : AnimatedObject)
    (h : obj.keyframes = []) :
    get_interpolated_state [] f = none ∧ applyFrame obj f = obj := by
  refine ⟨rfl, ?_⟩
  simp only [applyFrame, h]
  rfl

/-- C4 witness: a concrete object with an empty store at frame 7. -/
theorem C4_empty_store_witness :
    (mkAnimatedObject 400 300 50).keyframes = [] ∧
    (get_interpolated_state [] 7 = none ∧
     applyFrame (mkAnimatedObject 400 300 50) 7 = mkAnimatedObject 400 300 50) :=
  ⟨rfl, C4_empty_store_no_state 7 (mkAnimatedObject 400 300 50) rfl⟩

theorem kfInsert_of_not_mem (kfs : List (ℤ × AnimState)) (f : ℤ) (s : AnimState)
    (h : f ∉ kfs.map Prod.fst) : kfInsert kfs f s = kfs ++ [(f, s)] := by
  induction kfs with
  | nil => rfl
  | cons p tl ih =>
    obtain ⟨k, v⟩ := p
    simp only [List.map_cons, List.mem_cons] at h
    push_neg at h
    simp only [kfInsert, if_neg (Ne.symm h.1), List.cons_append, List.cons.injEq, true_and]
    exact ih h.2

/-- C10: adding a keyframe at a frame not already in the store and then
removing the keyframe at that frame restores the store to exactly its
original entries. -/
theorem C10_add_remove_restores_store (obj : AnimatedObject) (f : ℤ)
    (h : f ∉ obj.keyframes.map Prod.fst) :
    (remove_keyframe (add_keyframe obj f) f).keyframes = obj.keyframes := by
  have hins : (add_keyframe obj f).keyframes = obj.keyframes ++ [(f,
      ({ x := obj.posX, y := obj.posY, brightness := obj.brightness } : AnimState))] :=
    kfInsert_of_not_mem obj.keyframes f _ h
  have hmem : f ∈ ((add_keyframe obj f).keyframes.map Prod.fst) := by
    rw [hins]
    simp
  simp only [remove_keyframe, if_pos (List.elem_iff.mpr hmem)]
  rw [hins, kfDelete, List.eraseP_append_right]
  · simp [List.eraseP_cons_of_pos]
  · intro b hb hbf
    exact h (List.mem_map.mpr ⟨b, hb, by simpa using hbf⟩)

/-- C10 witness: a concrete object with one keyframe; add then remove at
a fresh frame leaves the store as it was. -/
theorem C10_add_remove_witness :
    ((7 : ℤ) ∉ ((add_keyframe (mkAnimatedObject 1 2 50) 3).keyframes.map Prod.fst)) ∧
    (remove_keyframe (add_keyframe (add_keyframe (mkAnimatedObject 1 2 50) 3) 7) 7).keyframes =
      (add_keyframe (mkAnimatedObject 1 2 50) 3).keyframes :=
  ⟨by simp [add_keyframe, mkAnimatedObject, kfInsert],
   C10_add_remove_restores_store (add_keyframe (mkAnimatedObject 1 2 50) 3) 7
     (by simp [add_keyframe, mkAnimatedObject, kfInsert])⟩

theorem isEmpty_false_of_mem {α : Type} {l : List α} {x : α} (h : x ∈ l) :
    l.isEmpty = false := by
  rcases l with _ | _
  · simp at h
  · rfl

/-- C1: for a frame that is not a key but has keys on both sides, the
engine interpolates each field independently between the greatest key
below and the smallest key above, as
`before.field + (after.field - before.field) * (f - before)/(after - before)`,
with no clamping of the interpolated brightness. -/
theorem C1_between_keys_linear_interpolation
    (kfs : List (ℤ × AnimState)) (f b a : ℤ) (sb sa : AnimState)
    (hnd : (kfs.map Prod.fst).Nodup)
    (hnm : f ∉ kfs.map Prod.fst)
    (hbmem : (b, sb) ∈ kfs) (hblt : b < f)
    (hbmax : ∀ k ∈ kfs.map Prod.fst, k < f → k ≤ b)
    (hamem : (a, sa) ∈ kfs) (halt : f < a)
    (hamin : ∀ k ∈ kfs.map Prod.fst, f < k → a ≤ k) :
    get_interpolated_state kfs f =
      some { x := sb.x + (sa.x - sb.x) * (((f : ℚ) - (b : ℚ)) / ((a : ℚ) - (b : ℚ))),
             y := sb.y + (sa.y - sb.y) * (((f : ℚ) - (b : ℚ)) / ((a : ℚ) - (b : ℚ))),
             brightness := sb.brightness + (sa.brightness - sb.brightness) *
               (((f : ℚ) - (b : ℚ)) / ((a : ℚ) - (b : ℚ))) } := by
  have hne : kfs ≠ [] := List.ne_nil_of_mem hbmem
  have hbkey : b ∈ kfs.map Prod.fst := List.mem_map.mpr ⟨(b, sb), hbmem, rfl⟩
  have hakey : a ∈ kfs.map Prod.fst := List.mem_map.mpr ⟨(a, sa), hamem, rfl⟩
  have hbmemf : b ∈ (kfs.map Prod.fst).filter (fun x => decide (x < f)) :=
    List.mem_filter.mpr ⟨hbkey, by simpa using hblt⟩
  have hamemf : a ∈ (kfs.map Prod.fst).filter (fun x => decide (f < x)) :=
    List.mem_filter.mpr ⟨hakey, by simpa using halt⟩
  have hbne := isEmpty_false_of_mem hbmemf
  have hane := isEmpty_false_of_mem hamemf
  have hmaxEq : pyMax ((kfs.map Prod.fst).filter (fun x => decide (x < f))) = b :=
    pyMax_eq _ b hbmemf (fun y hy =>
      hbmax y (List.mem_filter.mp hy).1 (by simpa using (List.mem_filter.mp hy).2))
  have hminEq : pyMin ((kfs.map Prod.fst).filter (fun x => decide (f < x))) = a :=
    pyMin_eq _ a hamemf (fun y hy =>
      hamin y (List.mem_filter.mp hy).1 (by simpa using (List.mem_filter.mp hy).2))
  rw [gis_branch kfs f hne hnm]
  simp only [hbne, hane, Bool.false_eq_true, if_false, hmaxEq, hminEq,
    kfLookup_eq_some kfs b sb hnd hbmem, kfLookup_eq_some kfs a sa hnd hamem]

/-- C1 witness: the two-key store of the spec's worked example,
`{0: (0,0,100), 10: (100,0,100)}` evaluated at frame 5. -/
theorem C1_between_keys_witness :
    ((([((0 : ℤ), ({ x := 0, y := 0, brightness := 100 } : AnimState)),
        ((10 : ℤ), ({ x := 100, y := 0, brightness := 100 } : AnimState))].map
          Prod.fst).Nodup)
     ∧ (5 : ℤ) ∉ ([((0 : ℤ), ({ x := 0, y := 0, brightness := 100 } : AnimState)),
        ((10 : ℤ), ({ x := 100, y := 0, brightness := 100 } : AnimState))].map Prod.fst))
    ∧ get_interpolated_state
        [((0 : ℤ), ({ x := 0, y := 0, brightness := 100 } : AnimState)),
         ((10 : ℤ), ({ x := 100, y := 0, brightness := 100 } : AnimState))] 5 =
      some { x := (0 : ℚ) + ((100 : ℚ) - 0) * (((5 : ℚ) - (0 : ℚ)) / ((10 : ℚ) - (0 : ℚ))),
             y := (0 : ℚ) + ((0 : ℚ) - 0) * (((5 : ℚ) - (0 : ℚ)) / ((10 : ℚ) - (0 : ℚ))),
             brightness := (100 : ℚ) + ((100 : ℚ) - 100) *
               (((5 : ℚ) - (0 : ℚ)) / ((10 : ℚ) - (0 : ℚ))) } :=
  ⟨⟨by simp, by simp⟩,
   C1_between_keys_linear_interpolation _ 5 0 10 _ _ (by simp) (by simp)
     (List.mem_cons_self _ _) (by norm_num)
     (by intro k hk; simp at hk; rcases hk with h | h <;> simp [h])
     (List.mem_cons_of_mem _ (List.mem_cons_self _ _)) (by norm_num)
     (by intro k hk; simp at hk; rcases hk with h | h <;> simp [h])⟩

/-! ### Timeline and application layer -/

/-- `Timeline.frame_width`: fixed layout constant, 10 pixels per frame. -/
def frame_width : ℤ := 10

/-- The `Timeline` fields the core logic touches. -/
structure Timeline where
  max_frames : ℤ
  current_frame : ℤ
  bar_x : ℤ
deriving DecidableEq, Repr

/-- The frame computed by `Timeline.on_bar_move` (lines 179-184):
`frame = int(x_pos / frame_width)` truncated toward zero, then
`max(0, min(frame, max_frames - 1))`. -/
def on_bar_move_frame (max_frames : ℤ) (x_pos : ℚ) : ℤ :=
  let frame := qtrunc (x_pos / (frame_width : ℚ))
  max 0 (min frame (max_frames - 1))

/-- `Timeline.on_bar_move`: store the clamped frame computed from the
bar's pixel position. -/
def Timeline.on_bar_move (tl : Timeline) (x_pos : ℚ) : Timeline :=
  { tl with current_frame := on_bar_move_frame tl.max_frames x_pos }

/-- `Timeline.set_frame` (lines 244-248): record the frame and move the
bar to pixel `frame * frame_width`. -/
def Timeline.set_frame (tl : Timeline) (frame : ℤ) : Timeline :=
  { tl with current_frame := frame, bar_x := frame * frame_width }

/-- The `AnimationSoftware` fields the core logic touches. -/
structure AnimationSoftware where
  current_frame : ℤ
  max_frames : ℤ
  fps : ℤ
  timeline : Timeline
  objects : List AnimatedObject
deriving DecidableEq, Repr

/-- `AnimationSoftware.update_objects_for_frame` (lines 539-545): apply
the frame to every object on the canvas. -/
def update_objects_for_frame (objs : List AnimatedObject) (frame : ℤ) :
    List AnimatedObject :=
  objs.map (fun o => applyFrame o frame)

/-- `AnimationSoftware.goto_frame` (lines 525-530): set `current_frame`
to the argument (no clamping), move the timeline bar, and re-apply the
frame to every object. -/
def goto_frame (app : AnimationSoftware) (frame : ℤ) : AnimationSoftware :=
  { app with
    current_frame := frame,
    timeline := app.timeline.set_frame frame,
    objects := update_objects_for_frame app.objects frame }

/-- `AnimationSoftware.next_frame` (lines 569-574): increment the
current frame, wrap to 0 when it reaches `max_frames`, then
`goto_frame`. -/
def next_frame (app : AnimationSoftware) : AnimationSoftware :=
  let cf := app.current_frame + 1
  goto_frame app (if cf ≥ app.max_frames then 0 else cf)

theorem qtrunc_of_nonneg (q : ℚ) (h : 0 ≤ q) : qtrunc q = ⌊q⌋ := by
  simp [qtrunc, h]

theorem qtrunc_intCast (z : ℤ) : qtrunc ((z : ℤ) : ℚ) = z := by
  unfold qtrunc
  split <;> simp

/-- A concrete application state with no objects, 300 frames. -/
def appNoObjects : AnimationSoftware :=
  { current_frame := 0, max_frames := 300, fps := 30,
    timeline := ⟨300, 0, 0⟩, objects := [] }

/-- A concrete application state paused on the last frame (299 of 300). -/
def appAtLastFrame : AnimationSoftware :=
  { current_frame := 299, max_frames := 300, fps := 30,
    timeline := ⟨300, 0, 0⟩, objects := [] }

/-- C6 counterexample: at pixel x = 19 the code truncates 19/10 to
frame 1, while the claimed clamp(round(19/10), 0, 299) is 2. -/
theorem C6_rounding_counterexample :
    on_bar_move_frame 300 19 ≠
      max 0 (min (round ((19 : ℚ) / (frame_width : ℚ))) (300 - 1)) := by
  norm_num [on_bar_move_frame, qtrunc, frame_width, round_eq]

/-- C6 amended: the pixel-to-frame map computes
`clamp(trunc(pixelX / frameWidth), 0, maxFrame - 1)` — truncation toward
zero, not rounding; the inverse map is `pixelX = frame * frameWidth` with
`frameWidth = 10` fixed, and for every in-range frame the inverse
followed by the forward map returns the same frame. -/
theorem C6_truncating_pixel_frame_map (mf f : ℤ) (x : ℚ) (tl : Timeline)
    (h0 : 0 ≤ f) (h1 : f < mf) :
    on_bar_move_frame mf x = max 0 (min (qtrunc (x / (frame_width : ℚ))) (mf - 1)) ∧
    (tl.set_frame f).bar_x = f * frame_width ∧
    frame_width = 10 ∧
    on_bar_move_frame mf (((f * frame_width : ℤ) : ℚ)) = f := by
  refine ⟨rfl, rfl, rfl, ?_⟩
  have hdiv : ((f * frame_width : ℤ) : ℚ) / (frame_width : ℚ) = ((f : ℤ) : ℚ) := by
    rw [frame_width]
    push_cast
    field_simp
  simp only [on_bar_move_frame, hdiv, qtrunc_intCast]
  rw [min_eq_left (by omega), max_eq_right h0]

/-- C6 witness: frame 29 on a 300-frame timeline. -/
theorem C6_truncating_witness :
    ((0 : ℤ) ≤ 29 ∧ (29 : ℤ) < 300) ∧
    (on_bar_move_frame 300 19 =
       max 0 (min (qtrunc ((19 : ℚ) / (frame_width : ℚ))) (300 - 1)) ∧
     (Timeline.set_frame ⟨300, 0, 0⟩ 29).bar_x = 29 * frame_width ∧
     frame_width = 10 ∧
     on_bar_move_frame 300 (((29 * frame_width : ℤ) : ℚ)) = 29) :=
  ⟨⟨by norm_num, by norm_num⟩,
   C6_truncating_pixel_frame_map 300 29 19 ⟨300, 0, 0⟩ (by norm_num) (by norm_num)⟩

/-- C7 counterexample: `goto_frame` performs no clamping — requesting
frame 350 with `max_frames = 300` leaves `current_frame = 350`, not the
claimed 299. -/
theorem C7_goto_no_clamp_counterexample :
    (goto_frame appNoObjects 350).current_frame = 350 ∧
    (goto_frame appNoObjects 350).current_frame ≠ 299 :=
  ⟨rfl, by decide⟩

/-- C7 amended: only the timeline-bar scrub path clamps: the frame
computed by `on_bar_move` always lands in `[0, max_frames)` (for
`max_frames ≥ 1`), while `goto_frame` sets `current_frame` to its
argument unclamped, relying on its callers (spinbox bounds, playback
wrap) to stay in range. -/
theorem C7_bar_scrub_clamps_goto_does_not (mf : ℤ) (x : ℚ)
    (app : AnimationSoftware) (f : ℤ) (h : 1 ≤ mf) :
    (0 ≤ on_bar_move_frame mf x ∧ on_bar_move_frame mf x < mf) ∧
    (goto_frame app f).current_frame = f := by
  refine ⟨⟨le_max_left 0 _, ?_⟩, rfl⟩
  have : min (qtrunc (x / (frame_width : ℚ))) (mf - 1) ≤ mf - 1 := min_le_right _ _
  simp only [on_bar_move_frame]
  omega

/-- C7 witness: bar pixel 3500 (frame 350 before clamping) on a
300-frame timeline, and a direct `goto_frame` to 5. -/
theorem C7_bar_scrub_witness :
    (1 : ℤ) ≤ 300 ∧
    ((0 ≤ on_bar_move_frame 300 3500 ∧ on_bar_move_frame 300 3500 < 300) ∧
     (goto_frame appNoObjects 5).current_frame = 5) :=
  ⟨by norm_num,
   C7_bar_scrub_clamps_goto_does_not 300 3500 appNoObjects 5 (by norm_num)⟩

/-- C8: one playback step at `current_frame = c ∈ [0, max_frames)` sets
`current_frame` to `(c + 1) mod max_frames` (wrapping to 0 at the end)
and applies that frame to every object. -/
theorem C8_playback_step_wraps (app : AnimationSoftware) (c mf : ℤ)
    (hc : app.current_frame = c) (hmf : app.max_frames = mf)
    (h0 : 0 ≤ c) (h1 : c < mf) :
    (next_frame app).current_frame = (c + 1) % mf ∧
    (next_frame app).objects = update_objects_for_frame app.objects ((c + 1) % mf) := by
  subst hc
  subst hmf
  by_cases h : app.current_frame + 1 ≥ app.max_frames
  · have he : app.current_frame + 1 = app.max_frames := le_antisymm (by omega) h
    have hm : (app.current_frame + 1) % app.max_frames = 0 := by
      rw [he]
      exact Int.emod_self
    simp [next_frame, goto_frame, h, hm]
  · have hm : (app.current_frame + 1) % app.max_frames = app.current_frame + 1 :=
      Int.emod_eq_of_lt (by omega) (by omega)
    simp [next_frame, goto_frame, h, hm]

/-- C8 witness: a step at the last frame (299 of 300) wraps to 0. -/
theorem C8_playback_step_witness :
    ((0 : ℤ) ≤ 299 ∧ (299 : ℤ) < 300) ∧
    ((next_frame appAtLastFrame).current_frame = (299 + 1) % 300 ∧
     (next_frame appAtLastFrame).objects =
       update_objects_for_frame appAtLastFrame.objects ((299 + 1) % 300)) :=
  ⟨⟨by norm_num, by norm_num⟩,
   C8_playback_step_wraps _ 299 300 rfl rfl (by norm_num) (by norm_num)⟩

/-- A concrete object whose red base channel is 101. -/
def objRed101 : AnimatedObject :=
  { posX := 0, posY := 0, size := 50, base_color := (101, 0, 0),
    rendered_color := (101, 0, 0), brightness := 100, keyframes := [] }

/-- C9 counterexample: at brightness 150 and base red 101 the code
renders channel `int(101 * 1.5) = 151`, while the claimed unrounded
`clamp(101 * (150/100), 0, 255)` is 151.5. -/
theorem C9_exact_channel_counterexample :
    (((set_brightness objRed101 150).rendered_color.1 : ℚ)) ≠
      max 0 (min 255 ((101 : ℚ) * (150 / 100))) := by
  norm_num [set_brightness, objRed101, qtrunc]

/-- C9 amended: `set_brightness v` (v ≥ 0) stores the brightness and
renders each channel as `min(255, int(base * v / 100))` — the product is
truncated to an integer before the upper clamp; with nonnegative base
channels every rendered channel stays in [0, 255], never overflowing or
wrapping. -/
theorem C9_brightness_truncates_then_clamps (obj : AnimatedObject) (v : ℚ)
    (hv : 0 ≤ v) (hr : 0 ≤ obj.base_color.1) (hg : 0 ≤ obj.base_color.2.1)
    (hb : 0 ≤ obj.base_color.2.2) :
    (set_brightness obj v).brightness = v ∧
    (set_brightness obj v).rendered_color =
      (min 255 ⌊(obj.base_color.1 : ℚ) * (v / 100)⌋,
       min 255 ⌊(obj.base_color.2.1 : ℚ) * (v / 100)⌋,
       min 255 ⌊(obj.base_color.2.2 : ℚ) * (v / 100)⌋) ∧
    (0 ≤ (set_brightness obj v).rendered_color.1 ∧
       (set_brightness obj v).rendered_color.1 ≤ 255) ∧
    (0 ≤ (set_brightness obj v).rendered_color.2.1 ∧
       (set_brightness obj v).rendered_color.2.1 ≤ 255) ∧
    (0 ≤ (set_brightness obj v).rendered_color.2.2 ∧
       (set_brightness obj v).rendered_color.2.2 ≤ 255) := by
  have hv100 : 0 ≤ v / 100 := by positivity
  have hprodR : (0 : ℚ) ≤ (obj.base_color.1 : ℚ) * (v / 100) :=
    mul_nonneg (by exact_mod_cast hr) hv100
  have hprodG : (0 : ℚ) ≤ (obj.base_color.2.1 : ℚ) * (v / 100) :=
    mul_nonneg (by exact_mod_cast hg) hv100
  have hprodB : (0 : ℚ) ≤ (obj.base_color.2.2 : ℚ) * (v / 100) :=
    mul_nonneg (by exact_mod_cast hb) hv100
  refine ⟨rfl, ?_, ?_, ?_, ?_⟩
  · simp only [set_brightness, qtrunc_of_nonneg _ hprodR, qtrunc_of_nonneg _ hprodG,
      qtrunc_of_nonneg _ hprodB]
  all_goals
    simp only [set_brightness, qtrunc_of_nonneg _ hprodR, qtrunc_of_nonneg _ hprodG,
      qtrunc_of_nonneg _ hprodB]
  · exact ⟨le_min (by norm_num) (Int.floor_nonneg.mpr hprodR), min_le_left _ _⟩
  · exact ⟨le_min (by norm_num) (Int.floor_nonneg.mpr hprodG), min_le_left _ _⟩
  · exact ⟨le_min (by norm_num) (Int.floor_nonneg.mpr hprodB), min_le_left _ _⟩

/-- C9 witness: the spec's example, brightness 200 on base color
(100, 150, 255), renders (200, 255, 255). -/
theorem C9_brightness_witness :
    ((0 : ℚ) ≤ 200 ∧ (0 : ℤ) ≤ (mkAnimatedObject 0 0 50).base_color.1 ∧
       (0 : ℤ) ≤ (mkAnimatedObject 0 0 50).base_color.2.1 ∧
       (0 : ℤ) ≤ (mkAnimatedObject 0 0 50).base_color.2.2) ∧
    (set_brightness (mkAnimatedObject 0 0 50) 200).brightness = 200 ∧
    (set_brightness (mkAnimatedObject 0 0 50) 200).rendered_color =
      (min 255 ⌊((mkAnimatedObject 0 0 50).base_color.1 : ℚ) * (200 / 100)⌋,
       min 255 ⌊((mkAnimatedObject 0 0 50).base_color.2.1 : ℚ) * (200 / 100)⌋,
       min 255 ⌊((mkAnimatedObject 0 0 50).base_color.2.2 : ℚ) * (200 / 100)⌋) ∧
    (set_brightness (mkAnimatedObject 0 0 50) 200).rendered_color = (200, 255, 255) :=
  have h := C9_brightness_truncates_then_clamps (mkAnimatedObject 0 0 50) 200
    (by norm_num) (by norm_num [mkAnimatedObject]) (by norm_num [mkAnimatedObject])
    (by norm_num [mkAnimatedObject])
  ⟨⟨by norm_num, by norm_num [mkAnimatedObject], by norm_num [mkAnimatedObject],
      by norm_num [mkAnimatedObject]⟩,
   h.1, h.2.1, by norm_num [set_brightness, mkAnimatedObject, qtrunc]⟩

/-! ### Document loading (`AnimationSoftware.load_animation`, lines 609-642) -/

/-- One hex digit of a `#rrggbb` color string. -/
def hexDigitVal (c : Char) : Option ℤ :=
  if c.isDigit then some ((c.toNat : ℤ) - 48)
  else if 'a' ≤ c ∧ c ≤ 'f' then some ((c.toNat : ℤ) - 87)
  else if 'A' ≤ c ∧ c ≤ 'F' then some ((c.toNat : ℤ) - 55)
  else none

/-- `QColor(name)` on a `#rrggbb` string: the channel triple, or black —
Qt's invalid color, which raises no exception — when the string does not
parse. -/
def parseHexColor (s : String) : ℤ × ℤ × ℤ :=
  match s.toList with
  | ['#', r1, r2, g1, g2, b1, b2] =>
    match hexDigitVal r1, hexDigitVal r2, hexDigitVal g1, hexDigitVal g2,
          hexDigitVal b1, hexDigitVal b2 with
    | some hr1, some hr2, some hg1, some hg2, some hb1, some hb2 =>
        (16 * hr1 + hr2, 16 * hg1 + hg2, 16 * hb1 + hb2)
    | _, _, _, _, _, _ => (0, 0, 0)
  | _ => (0, 0, 0)

/-- One entry of the document's `objects` array: `none` fields model JSON
keys that are absent (Python raises `KeyError` for the required ones,
uses `.get` defaults for `brightness`/`keyframes`). -/
structure ObjData where
  x : Option ℚ
  y : Option ℚ
  size : Option ℚ
  color : Option String
  brightness : Option ℚ
  keyframes : Option (List (String × AnimState))
deriving DecidableEq, Repr

/-- A parsed JSON animation document. -/
structure DocData where
  max_frames : Option ℤ
  fps : Option ℤ
  objects : Option (List ObjData)
deriving DecidableEq, Repr

/-- The keyframe dict comprehension
`{int(k): v for k, v in obj_data.get('keyframes', {}).items()}`:
fails (`ValueError`) at the first non-numeric key. -/
def parseKeyframes : List (String × AnimState) → Except String (List (ℤ × AnimState))
  | [] => .ok []
  | (k, v) :: tl =>
    match k.toInt? with
    | none => .error ("invalid literal for int: " ++ k)
    | some ki =>
      match parseKeyframes tl with
      | .error e => .error e
      | .ok tl2 => .ok ((ki, v) :: tl2)

/-- The per-object body of the load loop (lines 628-631): construct the
object, apply the color, overwrite brightness, parse the keyframe keys.
`.error` models the Python exception (missing required field or
non-numeric keyframe key). -/
def loadObject (d : ObjData) : Except String AnimatedObject :=
  match d.x with
  | none => .error "KeyError: x"
  | some x =>
  match d.y with
  | none => .error "KeyError: y"
  | some y =>
  match d.size with
  | none => .error "KeyError: size"
  | some size =>
  match d.color with
  | none => .error "KeyError: color"
  | some c =>
  match parseKeyframes (d.keyframes.getD []) with
  | .error e => .error e
  | .ok kfs =>
    let obj := set_base_color (mkAnimatedObject x y size) (parseHexColor c)
    let obj := { obj with brightness := d.brightness.getD 100 }
    .ok { obj with keyframes := kfs }

/-- The `for obj_data in data.get('objects', [])` loop: objects created
so far have already been appended to the canvas when an exception
aborts the loop. -/
def loadObjectsLoop (acc : List AnimatedObject) :
    List ObjData → List AnimatedObject × Option String
  | [] => (acc, none)
  | d :: rest =>
    match loadObject d with
    | .error e => (acc, some ("Failed to load animation: " ++ e))
    | .ok obj => loadObjectsLoop (acc ++ [obj]) rest

/-- `AnimationSoftware.load_animation` (lines 609-642): the canvas is
cleared and `max_frames`/`fps` overwritten *before* the objects are
parsed; an exception mid-loop is caught and shown, with the partially
rebuilt state left in place.  On full success, `goto_frame 0`. -/
def load_animation (app : AnimationSoftware) (data : DocData) :
    AnimationSoftware × Option String :=
  let app1 := { app with objects := ([] : List AnimatedObject),
                         max_frames := data.max_frames.getD 300,
                         fps := data.fps.getD 30 }
  match loadObjectsLoop [] (data.objects.getD []) with
  | (objs, some err) => ({ app1 with objects := objs }, some err)
  | (objs, none) => (goto_frame { app1 with objects := objs } 0, none)

/-- A pre-load application state owning one object with one keyframe. -/
def objWithKeyframe : AnimatedObject :=
  { posX := 1, posY := 2, size := 50, base_color := (100, 150, 255),
    rendered_color := (100, 150, 255), brightness := 100,
    keyframes := [(0, { x := 1, y := 2, brightness := 100 })] }

/-- The pre-load scene for the C5 failing input. -/
def appPreLoad : AnimationSoftware :=
  { current_frame := 0, max_frames := 300, fps := 30,
    timeline := ⟨300, 0, 0⟩, objects := [objWithKeyframe] }

/-- A malformed document: its single object entry is missing the
required `x` field. -/
def malformedObjData : ObjData :=
  { x := none, y := some 0, size := some 50, color := some "#ff0000",
    brightness := none, keyframes := none }

/-- The malformed document fed to `load_animation` in C5. -/
def malformedDoc : DocData :=
  { max_frames := some 200, fps := some 24, objects := some [malformedObjData] }

/-- C5: loading the malformed document does surface a single
load-failure signal, but the scene does NOT remain in its pre-load
state: the objects were cleared and `max_frames` overwritten before the
malformed entry was detected. -/
theorem C5_failed_load_mutates_scene :
    (load_animation appPreLoad malformedDoc).2.isSome = true ∧
    (load_animation appPreLoad malformedDoc).1.objects ≠ appPreLoad.objects ∧
    (load_animation appPreLoad malformedDoc).1.max_frames ≠ appPreLoad.max_frames :=
  ⟨rfl, by decide, by decide⟩
